import Mathlib

/-!
# Verification of the Price Comparables Aggregation Engine

A shallow embedding, in Lean 4, of the price-comparables pipeline of
`src/app.py` (currency parsing, listing deduplication, percentile
statistics, the clamp/IQR filters, the fetch cascade, the TTL cache and
the aggregation orchestrator), together with proofs about the claims of
the specification.

Modelling conventions:

* Python floats are modelled as exact rationals (`ℚ`).  All prices and
  timestamps in the pipeline carry at most a few decimal digits, so no
  claim in this development depends on binary floating-point rounding.
* Python `round(v, 2)` is modelled as `⌊v * 100 + 1/2⌋ / 100`.  The two
  differ only on exact half-cent ties (Python rounds those to even);
  no value in this development hits a tie.
* Arithmetic on `ℚ` is written with the kernel-computable wrappers
  `qadd`, `qsub`, `qmul`, `qdiv`, `qfloor`, `qceil` (the library's
  `Rat.add` etc. are `@[irreducible]`, which blocks `decide` on
  concrete inputs).  The bridge lemmas `qadd_eq` … `qceil_eq` identify
  them with the ordinary field operations and floor/ceil.
* HTTP transport is abstracted: a fetcher is modelled by its pure core
  acting on the decoded upstream payload, and the cascade by oracle
  functions from queries to listing lists.  Transport errors are
  exactly the empty-list outcomes of those oracles.
-/

/-! ## Kernel-computable rational arithmetic -/

/-- Kernel-computable addition on `ℚ` (see module docstring). -/
def qadd (a b : ℚ) : ℚ := mkRat (a.num * b.den + b.num * a.den) (a.den * b.den)

/-- Kernel-computable subtraction on `ℚ`. -/
def qsub (a b : ℚ) : ℚ := mkRat (a.num * b.den - b.num * a.den) (a.den * b.den)

/-- Kernel-computable multiplication on `ℚ`. -/
def qmul (a b : ℚ) : ℚ := Rat.divInt (a.num * b.num) ((a.den : ℤ) * (b.den : ℤ))

/-- Kernel-computable division on `ℚ`. -/
def qdiv (a b : ℚ) : ℚ := Rat.divInt (a.num * b.den) ((a.den : ℤ) * b.num)

/-- Kernel-computable floor on `ℚ`. -/
def qfloor (a : ℚ) : ℤ := a.num / a.den

/-- Kernel-computable ceiling on `ℚ`. -/
def qceil (a : ℚ) : ℤ := -qfloor (-a)

@[simp] theorem qadd_eq (a b : ℚ) : qadd a b = a + b := (Rat.add_def' a b).symm

@[simp] theorem qsub_eq (a b : ℚ) : qsub a b = a - b := (Rat.sub_def' a b).symm

@[simp] theorem qmul_eq (a b : ℚ) : qmul a b = a * b := by
  rw [qmul, ← Rat.divInt_mul_divInt' a.num (a.den : ℤ) b.num (b.den : ℤ),
    Rat.num_divInt_den, Rat.num_divInt_den]

@[simp] theorem qdiv_eq (a b : ℚ) : qdiv a b = a / b := (Rat.div_def' a b).symm

@[simp] theorem qfloor_eq (a : ℚ) : qfloor a = ⌊a⌋ := Rat.floor_def.symm

@[simp] theorem qceil_eq (a : ℚ) : qceil a = ⌈a⌉ := by
  rw [qceil, qfloor_eq, Int.floor_neg, neg_neg]

/-- `round(v, 2)` from Python, on exact rationals. -/
def qround2 (v : ℚ) : ℚ := qdiv ((qfloor (qadd (qmul v 100) (mkRat 1 2)) : ℤ) : ℚ) 100

theorem qround2_eq (v : ℚ) : qround2 v = ((⌊v * 100 + 1/2⌋ : ℤ) : ℚ) / 100 := by
  simp only [qround2, qdiv_eq, qfloor_eq, qadd_eq, qmul_eq, Rat.mkRat_eq_divInt,
    Rat.divInt_eq_div]
  norm_num

/-! ## Python string primitives

`str.strip`, `str.split`, `\s` of the `re` module: Python treats the
ASCII whitespace characters and (for `str`) the no-break space as
whitespace; that is all the pipeline ever meets. -/

/-- The whitespace characters recognised by Python's `str.strip`,
`str.split` and the regex class `\s` on the inputs of this pipeline. -/
def isPySpace (c : Char) : Bool :=
  c = ' ' ∨ c = '\t' ∨ c = '\n' ∨ c = '\r' ∨ c = '\x0b' ∨ c = '\x0c' ∨ c = '\u00A0'

/-- Python `str.strip()` on a character list. -/
def pyStrip (cs : List Char) : List Char :=
  ((cs.dropWhile isPySpace).reverse.dropWhile isPySpace).reverse

/-- Helper for `pySplit`: the word being accumulated is carried in
reverse. -/
def pySplitAux : List Char → List Char → List (List Char)
  | [], acc => if acc = [] then [] else [acc.reverse]
  | c :: rest, acc =>
    if isPySpace c then
      if acc = [] then pySplitAux rest []
      else acc.reverse :: pySplitAux rest []
    else pySplitAux rest (c :: acc)

/-- Python `str.split()` (split on whitespace runs, dropping empties). -/
def pySplit (cs : List Char) : List (List Char) := pySplitAux cs []

/-! ## Currency parser (`_normalize_amount_string`, lines 623–663) -/

/-- The character class `[0-9\s,\.]` of the currency regexes. -/
def isAmtChar (c : Char) : Bool := c.isDigit || isPySpace c || c = ',' || c = '.'

/-- The separator-normalisation step of `_normalize_amount_string`:
if a comma is present and no dot, the comma is the decimal separator;
otherwise commas are thousands separators and are removed. -/
def normSeparators (cs : List Char) : List Char :=
  if cs.contains ',' && !cs.contains '.' then
    cs.map (fun c => if c = ',' then '.' else c)
  else
    cs.filter (fun c => c ≠ ',')

/-- Keep digits and at most one dot, dropping everything else
(the `cleaned` loop of `_normalize_amount_string`). -/
def keepDigitsOneDot : List Char → Bool → List Char
  | [], _ => []
  | c :: rest, dot =>
    if c.isDigit then c :: keepDigitsOneDot rest dot
    else if c = '.' && !dot then '.' :: keepDigitsOneDot rest true
    else keepDigitsOneDot rest dot

/-- Numeric value of a digit string (most significant first). -/
def natOfDigits (cs : List Char) : ℕ :=
  cs.foldl (fun a c => 10 * a + (c.toNat - 48)) 0

/-- Python `float(s2)` on a cleaned string of digits with at most one
dot.  Fails exactly when there is no digit at all. -/
def parseCleaned (s2 : List Char) : Option ℚ :=
  let ip := s2.takeWhile (fun c => c ≠ '.')
  let fp := (s2.dropWhile (fun c => c ≠ '.')).drop 1
  if ip = [] && fp = [] then none
  else some (qadd ((natOfDigits ip : ℕ) : ℚ) (qdiv ((natOfDigits fp : ℕ) : ℚ) ((10 ^ fp.length : ℕ) : ℚ)))

/-- Core of `_normalize_amount_string` on a character list. -/
def normAmountCore (cs : List Char) : Option ℚ :=
  let cs1 := pyStrip cs
  let cs2 := cs1.map (fun c => if c = '\u00A0' then ' ' else c)
  let cs3 := pyStrip cs2
  let cs4 := normSeparators cs3
  let s2 := keepDigitsOneDot cs4 false
  if s2 = [] then none
  else
    match parseCleaned s2 with
    | none => none
    | some v0 =>
      let v := if !s2.contains '.' && 1000 ≤ v0 then qdiv v0 100 else v0
      if 0 < v ∧ v < 10000 then some (qround2 v) else none

/-- `_normalize_amount_string` (lines 623–663 of `src/app.py`). -/
def normalize_amount_string (s : String) : Option ℚ := normAmountCore s.toList

/-! ## The currency regexes (`CURRENCY_RXES`, lines 618–621)

`£\s*([0-9][0-9\s,\.]*)` and `([0-9][0-9\s,\.]*)\s*GBP\b`, both
`re.IGNORECASE`, searched with leftmost-match semantics. -/

/-- Match `£\s*([0-9][0-9\s,\.]*)` anchored at the head of the list,
returning the captured group. -/
def rx1At : List Char → Option (List Char)
  | '£' :: rest =>
    match rest.dropWhile isPySpace with
    | c :: tail => if c.isDigit then some (c :: tail.takeWhile isAmtChar) else none
    | [] => none
  | _ => none

/-- Leftmost match of the `£`-prefixed regex. -/
def searchRx1 : List Char → Option (List Char)
  | [] => none
  | c :: rest =>
    match rx1At (c :: rest) with
    | some g => some g
    | none => searchRx1 rest

/-- Match `\s*GBP\b` (case-insensitive) against the head of the list. -/
def matchGBPAfter (cs : List Char) : Bool :=
  match cs.dropWhile isPySpace with
  | g :: b :: p :: rest =>
    g.toLower = 'g' && b.toLower = 'b' && p.toLower = 'p' &&
      !(match rest with
        | [] => false
        | d :: _ => d.isAlphanum || d = '_')
  | _ => false

/-- Match `([0-9][0-9\s,\.]*)\s*GBP\b` anchored at the head, with the
greedy group backtracking from the longest run, returning the group. -/
def rx2At : List Char → Option (List Char)
  | c :: rest =>
    if c.isDigit then
      let run := rest.takeWhile isAmtChar
      let after := rest.drop run.length
      ((List.range (run.length + 1)).reverse.findSome? fun j =>
        if matchGBPAfter (run.drop j ++ after) then some (c :: run.take j) else none)
    else none
  | [] => none

/-- Leftmost match of the `GBP`-suffixed regex. -/
def searchRx2 : List Char → Option (List Char)
  | [] => none
  | c :: rest =>
    match rx2At (c :: rest) with
    | some g => some g
    | none => searchRx2 rest

/-- `extract_price_from_text` (lines 665–676 of `src/app.py`): first
currency-looking amount, `£`-prefixed preferred, then `GBP`-suffixed,
then a loose whole-text parse.  Python's `if not text` also maps the
empty string to `None`. -/
def extract_price_from_text (text : String) : Option ℚ :=
  if text = "" then none
  else
    let cs := text.toList
    match (searchRx1 cs).bind normAmountCore with
    | some v => some v
    | none =>
      match (searchRx2 cs).bind normAmountCore with
      | some v => some v
      | none => normAmountCore cs

/-! ## Listings and deduplication (`uniq`, lines 678–686) -/

/-- `ListingRecord`: the unit produced by a source fetcher. -/
structure Listing where
  title : String
  price_gbp : ℚ
  url : String
deriving DecidableEq

/-- The identity used for deduplication: the `(url, title, price_gbp)`
triple. -/
def listingKey (it : Listing) : String × String × ℚ := (it.url, it.title, it.price_gbp)

/-- The loop of `uniq`, with the `seen` set made explicit. -/
def uniqGo (seen : List (String × String × ℚ)) : List Listing → List Listing
  | [] => []
  | it :: rest =>
    if listingKey it ∈ seen then uniqGo seen rest
    else it :: uniqGo (listingKey it :: seen) rest

/-- `uniq` (lines 678–686 of `src/app.py`). -/
def uniq (items : List Listing) : List Listing := uniqGo [] items

/-- Modelled from the spec's words (§4.4): keep the first occurrence of
each `(url, title, price_gbp)` triple, removing every later listing
whose triple equals that of an earlier one, preserving order.  (The
head is kept, and everything with its key is removed from the
deduplicated tail.) -/
def dedupFirstOcc : List Listing → List Listing
  | [] => []
  | x :: xs => x :: (dedupFirstOcc xs).filter (fun y => listingKey y ≠ listingKey x)

/-! ## Configuration constants (lines 34–45), at their defaults -/

def VINTED_BASE : String := "https://www.vinted.co.uk"

def MAX_ITEMS : ℕ := 40

def EXAMPLES_LIMIT : ℕ := 5

def CACHE_TTL : ℚ := 600

def ENABLE_OUTLIER_FILTER : Bool := true

def CLAMP_MIN : ℚ := 2

def CLAMP_MAX : ℚ := 500

/-! ## Math helpers (`pct`, `median`, `iqr_filter`, lines 580–607) -/

/-- The interpolation position `k = (len(arr) - 1) * (p / 100.0)` of
`pct`, over the sorted array. -/
def pctK (values : List ℚ) (p : ℚ) : ℚ :=
  qmul (qsub (((values.insertionSort (fun a b => a ≤ b)).length : ℕ) : ℚ) 1) (qdiv p 100)

/-- `pct` (lines 580–591): sort ascending, `k = (n-1)*p/100`, and
linearly interpolate between the floor- and ceiling-index values. -/
def pct (values : List ℚ) (p : ℚ) : Option ℚ :=
  if values = [] then none
  else if qfloor (pctK values p) = qceil (pctK values p) then
    some ((values.insertionSort (fun a b => a ≤ b)).getD (qfloor (pctK values p)).toNat 0)
  else
    some (qadd
      (qmul ((values.insertionSort (fun a b => a ≤ b)).getD (qfloor (pctK values p)).toNat 0)
        (qsub ((qceil (pctK values p) : ℤ) : ℚ) (pctK values p)))
      (qmul ((values.insertionSort (fun a b => a ≤ b)).getD (qceil (pctK values p)).toNat 0)
        (qsub (pctK values p) ((qfloor (pctK values p) : ℤ) : ℚ))))

/-- `median` (lines 593–594). -/
def median (values : List ℚ) : Option ℚ := pct values 50

/-- `lo = q1 - 1.5 * iqr` of `iqr_filter`. -/
def iqrLo (q1 q3 : ℚ) : ℚ := qsub q1 (qmul (mkRat 3 2) (qsub q3 q1))

/-- `hi = q3 + 1.5 * iqr` of `iqr_filter`. -/
def iqrHi (q1 q3 : ℚ) : ℚ := qadd q3 (qmul (mkRat 3 2) (qsub q3 q1))

/-- `iqr_filter` (lines 596–607): trim values outside
`[Q1 - 1.5*IQR, Q3 + 1.5*IQR]`, only for 6 or more values. -/
def iqr_filter (vals : List ℚ) : List ℚ :=
  if vals.length < 6 then vals
  else
    match pct vals 25, pct vals 75 with
    | some q1, some q3 => vals.filter (fun v => decide (iqrLo q1 q3 ≤ v ∧ v ≤ iqrHi q1 q3))
    | _, _ => vals

/-! ## `compute_stats` (lines 834–856) -/

/-- The dictionary returned by `compute_stats`. -/
structure Stats where
  median : Option ℚ
  p25 : Option ℚ
  p75 : Option ℚ
  used_count : ℕ
  raw_count : ℕ
  prices : List ℚ
deriving DecidableEq

/-- `compute_stats` (lines 834–856): soft clamp with fallback to the
raw list when fewer than `max(6, raw_count // 3)` values survive, then
the optional IQR filter, then rounded median/p25/p75. -/
def compute_stats (items : List Listing) : Stats :=
  let prices0 := items.map (fun it => it.price_gbp)
  let clamped := prices0.filter (fun v => decide (CLAMP_MIN ≤ v ∧ v ≤ CLAMP_MAX))
  let prices1 := if max 6 (prices0.length / 3) ≤ clamped.length then clamped else prices0
  let prices2 := if ENABLE_OUTLIER_FILTER then iqr_filter prices1 else prices1
  if prices2 = [] then
    { median := none, p25 := none, p75 := none,
      used_count := 0, raw_count := prices0.length, prices := [] }
  else
    { median := (median prices2).map qround2,
      p25 := (pct prices2 25).map qround2,
      p75 := (pct prices2 75).map qround2,
      used_count := prices2.length, raw_count := prices0.length, prices := prices2 }

/-! ## Query normalisation (`normalize_query`, lines 612–615) -/

/-- `" ".join` on character lists. -/
def joinSpaces (parts : List (List Char)) : List Char := List.intercalate [' '] parts

/-- `normalize_query` (lines 612–615): strip the four attributes, drop
the empty ones, join with single spaces, collapse whitespace runs. -/
def normalize_query (brand item_type size colour : String) : String :=
  let parts := ([brand, item_type, size, colour].map (fun x => pyStrip x.toList)).filter
    (fun x => x ≠ [])
  String.mk (joinSpaces (pySplit (joinSpaces parts)))

/-! ## The structured-API fetcher (`_coerce_price_gbp_from_api_item`
and the per-item body of `fetch_vinted_api`, lines 705–786)

Transport is abstracted away: the fetcher core acts on the decoded
item list of a successful JSON response.  An upstream item is modelled
by the fields the code reads; a price field is a string or a number
(`Sum.inl` / `Sum.inr`), and absent fields are `none`. -/

/-- The fields of an upstream catalog item read by the code. -/
structure ApiItem where
  title : Option String := none
  description : Option String := none
  brand_title : Option String := none
  /-- `price_with_currency["amount"]` when present and a string. -/
  pwc_amount : Option String := none
  price : Option (String ⊕ ℚ) := none
  price_numeric : Option (String ⊕ ℚ) := none
  total_item_price : Option (String ⊕ ℚ) := none
  url : Option String := none
  path : Option String := none
  id : Option ℕ := none

/-- The string-field pass of the coercion loop. -/
def strPrice (f : Option (String ⊕ ℚ)) : Option ℚ :=
  match f with
  | some (Sum.inl s) => extract_price_from_text s
  | _ => none

/-- The numeric-field pass of the coercion loop: values at least 100
are taken as pence and divided by 100; smaller positive values below
10000 pass through; others fall to the next field. -/
def numPrice (f : Option (String ⊕ ℚ)) : Option ℚ :=
  match f with
  | some (Sum.inr q) =>
    if 100 ≤ q then some (qround2 (qdiv q 100))
    else if 0 < q ∧ q < 10000 then some (qround2 q)
    else none
  | _ => none

/-- `_coerce_price_gbp_from_api_item` (lines 705–733). -/
def coerce_price_gbp_from_api_item (it : ApiItem) : Option ℚ :=
  match it.pwc_amount.bind extract_price_from_text with
  | some v => some v
  | none =>
    match strPrice it.price <|> strPrice it.price_numeric <|> strPrice it.total_item_price with
    | some v => some v
    | none => numPrice it.price <|> numPrice it.price_numeric <|> numPrice it.total_item_price

/-- Python's falsy-chaining `a or b` on optional strings. -/
def orStr : Option String → String → String
  | some s, b => if s = "" then b else s
  | none, b => b

/-- `str(title)[:120]`-style slicing by code points. -/
def strTake (s : String) (n : ℕ) : String := String.mk (s.toList.take n)

/-- The title fallback chain of `fetch_vinted_api`. -/
def api_title (it : ApiItem) : String :=
  orStr it.title (orStr it.description (orStr it.brand_title ("Item")))

/-- The URL resolution of `fetch_vinted_api`: `url or path`, resolve a
leading `/` against the base, else fall back to `/items/{id}` or the
base URL. -/
def api_web_url (it : ApiItem) : String :=
  let viaField : Option String :=
    match it.url with
    | some s => if s = "" then (match it.path with
        | some p => if p = "" then none else some p
        | none => none) else some s
    | none =>
      match it.path with
      | some p => if p = "" then none else some p
      | none => none
  match viaField with
  | some s => if s.startsWith ("/") then VINTED_BASE ++ s else s
  | none =>
    match it.id with
    | some i => if i = 0 then VINTED_BASE else VINTED_BASE ++ "/items/" ++ toString i
    | none => VINTED_BASE

/-- The per-item body of `fetch_vinted_api`: items whose coerced price
is `None` are dropped, the others become listings. -/
def apiListingOf (it : ApiItem) : Option Listing :=
  match coerce_price_gbp_from_api_item it with
  | none => none
  | some p => some { title := strTake (api_title it) 120, price_gbp := p, url := api_web_url it }

/-- The pure core of `fetch_vinted_api` (lines 735–786) on the decoded
item list of a successful response, capped at `MAX_ITEMS`. -/
def fetch_vinted_api_items (items : List ApiItem) : List Listing :=
  (items.filterMap apiListingOf).take MAX_ITEMS

/-! ## The fetch cascade and the orchestrator (`get_comps`,
lines 858–914)

The four fetchers are oracles from the normalized query to a listing
list; an empty list covers both "no results" and any transport or
shape error.  `runCascade` also returns the `source` tag and the
instrumented list of fetchers invoked, in order. -/

/-- Tags for the four fetchers, in cascade order. -/
inductive Fetcher where
  | api
  | html
  | csApi
  | csHtml
deriving DecidableEq

/-- The upstream world: one oracle per fetcher, plus whether the
anti-automation transport (`cloudscraper`) is importable. -/
structure FetchEnv where
  api : String → List Listing
  html : String → List Listing
  csApi : String → List Listing
  csHtml : String → List Listing
  hasCloudscraper : Bool

/-- Steps 1–3 of `get_comps` (lines 870–891): API, then HTML, then the
cloudscraper variants when available, stopping at the first non-empty
result. -/
def runCascade (env : FetchEnv) (q : String) : List Listing × String × List Fetcher :=
  if env.api q ≠ [] then (env.api q, "api", [Fetcher.api])
  else if env.html q ≠ [] then (env.html q, "html", [Fetcher.api, Fetcher.html])
  else if env.hasCloudscraper then
    if env.csApi q ≠ [] then
      (env.csApi q, "cloudscraper-api", [Fetcher.api, Fetcher.html, Fetcher.csApi])
    else if env.csHtml q ≠ [] then
      (env.csHtml q, "cloudscraper-html", [Fetcher.api, Fetcher.html, Fetcher.csApi, Fetcher.csHtml])
    else
      ([], "cloudscraper-api", [Fetcher.api, Fetcher.html, Fetcher.csApi, Fetcher.csHtml])
  else ([], "html", [Fetcher.api, Fetcher.html])

/-- `AggregatedResult`: the response dictionary assembled by
`get_comps`.  The `cache` key is only added on a cache-hit return; it
is modelled as a Bool field that is `false` on assembly. -/
structure AggResult where
  query : String
  count : ℕ
  median_price_gbp : Option ℚ
  p25_gbp : Option ℚ
  p75_gbp : Option ℚ
  examples : List Listing
  source : String
  outlier_filter : Bool
  clamp_min : ℚ
  clamp_max : ℚ
  cache : Bool
deriving DecidableEq

/-- One entry of the module-level `_cache` dictionary. -/
structure CacheEntry where
  t : ℚ
  data : AggResult
deriving DecidableEq

/-- The `_cache` dictionary, as an association list whose most recent
binding for a key comes first. -/
abbrev Cache := List (String × CacheEntry)

/-- Dictionary lookup. -/
def cacheGet (c : Cache) (k : String) : Option CacheEntry :=
  match c.find? (fun e => e.1 == k) with
  | some e => some e.2
  | none => none

/-- Dictionary overwrite (`_cache[cache_key] = ...`). -/
def cachePut (c : Cache) (k : String) (e : CacheEntry) : Cache :=
  (k, e) :: c.filter (fun p => p.1 ≠ k)

/-- The fresh-cache-hit test of `get_comps` (line 865:
`hit and (now_ts - hit["t"] < CACHE_TTL)`); a call is served from the
cache exactly when this is `true`, and is a non-cache-hit call
(no entry, or a stale one) exactly when it is `false`. -/
def isFreshHit (c : Cache) (k : String) (now : ℚ) : Bool :=
  match cacheGet c k with
  | some hit => decide (qsub now hit.t < CACHE_TTL)
  | none => false

/-- `round(it["price_gbp"], 2)` applied to an example listing. -/
def roundedExample (it : Listing) : Listing := { it with price_gbp := qround2 it.price_gbp }

/-- The cache-miss path of `get_comps` (lines 870–914): cascade, dedup
and cap, statistics, response assembly, unconditional cache write. -/
def fetchAndAssemble (env : FetchEnv) (now : ℚ) (cache : Cache) (q : String) :
    AggResult × Cache × List Fetcher :=
  let fr := runCascade env q
  let items := (uniq fr.1).take MAX_ITEMS
  let stats := compute_stats items
  let result : AggResult :=
    { query := q, count := stats.raw_count,
      median_price_gbp := stats.median, p25_gbp := stats.p25, p75_gbp := stats.p75,
      examples := (items.take EXAMPLES_LIMIT).map roundedExample,
      source := fr.2.1, outlier_filter := ENABLE_OUTLIER_FILTER,
      clamp_min := CLAMP_MIN, clamp_max := CLAMP_MAX, cache := false }
  (result, cachePut cache ("q:" ++ q) { t := now, data := result }, fr.2.2)

/-- `get_comps` (lines 858–914), with the wall clock and the cache
state passed explicitly.  Returns the result, the cache after the
call, and the instrumented list of fetchers invoked. -/
def get_comps (env : FetchEnv) (now : ℚ) (cache : Cache)
    (brand item_type size colour : String) : AggResult × Cache × List Fetcher :=
  match cacheGet cache ("q:" ++ normalize_query brand item_type size colour) with
  | some hit =>
    if qsub now hit.t < CACHE_TTL then ({ hit.data with cache := true }, cache, [])
    else fetchAndAssemble env now cache (normalize_query brand item_type size colour)
  | none => fetchAndAssemble env now cache (normalize_query brand item_type size colour)

/-- The status mapping of the `/api/price` route (lines 1076–1081):
`200` when `count` is truthy, else `404`. -/
def api_price_status (data : AggResult) : ℕ := if data.count ≠ 0 then 200 else 404

/-! ## Helper lemmas -/

theorem listingKey_eq_iff (x y : Listing) : listingKey x = listingKey y ↔ x = y := by
  cases x
  cases y
  simp [listingKey, Prod.ext_iff]
  tauto

theorem uniqGo_eq_dedupFirstOcc (l : List Listing) :
    ∀ seen, uniqGo seen l =
      (dedupFirstOcc l).filter (fun y => decide (listingKey y ∉ seen)) := by
  induction l with
  | nil => intro seen; rfl
  | cons x xs ih =>
    intro seen
    have h2 : dedupFirstOcc (x :: xs)
        = x :: (dedupFirstOcc xs).filter (fun y => listingKey y ≠ listingKey x) := rfl
    by_cases hx : listingKey x ∈ seen
    · rw [show uniqGo seen (x :: xs) = uniqGo seen xs from by simp [uniqGo, hx], ih seen]
      rw [h2, List.filter_cons, if_neg (by simp [hx]), List.filter_filter]
      apply List.filter_congr
      intro y _
      by_cases hy : listingKey y ∈ seen
      · simp [hy]
      · have hne : listingKey y ≠ listingKey x := by
          intro hc
          rw [hc] at hy
          exact hy hx
        simp [hy, hne]
    · rw [show uniqGo seen (x :: xs)
          = x :: uniqGo (listingKey x :: seen) xs from by simp [uniqGo, hx],
        ih (listingKey x :: seen)]
      rw [h2, List.filter_cons, if_pos (by simp [hx]), List.filter_filter]
      congr 1
      apply List.filter_congr
      intro y _
      simp [List.mem_cons, not_or, Bool.and_comm]

theorem uniq_eq_dedupFirstOcc_aux (l : List Listing) : uniq l = dedupFirstOcc l := by
  rw [uniq, uniqGo_eq_dedupFirstOcc l []]
  simp

theorem uniq_eq_nil_iff (l : List Listing) : uniq l = [] ↔ l = [] := by
  cases l with
  | nil => simp [uniq, uniqGo]
  | cons x xs => simp [uniq, uniqGo]

theorem compute_stats_raw_count (items : List Listing) :
    (compute_stats items).raw_count = items.length := by
  unfold compute_stats
  rw [apply_ite Stats.raw_count]
  simp

theorem cacheGet_cachePut_self (c : Cache) (k : String) (e : CacheEntry) :
    cacheGet (cachePut c k e) k = some e := by
  simp [cacheGet, cachePut, List.find?_cons]

theorem get_comps_miss (env : FetchEnv) (now : ℚ) (cache : Cache)
    (brand item_type size colour : String)
    (h : cacheGet cache ("q:" ++ normalize_query brand item_type size colour) = none) :
    get_comps env now cache brand item_type size colour =
      fetchAndAssemble env now cache (normalize_query brand item_type size colour) := by
  unfold get_comps
  rw [h]

theorem get_comps_hit (env : FetchEnv) (now : ℚ) (cache : Cache)
    (brand item_type size colour : String) (hit : CacheEntry)
    (h : cacheGet cache ("q:" ++ normalize_query brand item_type size colour) = some hit)
    (hf : qsub now hit.t < CACHE_TTL) :
    get_comps env now cache brand item_type size colour =
      ({ hit.data with cache := true }, cache, []) := by
  unfold get_comps
  rw [h]
  exact if_pos hf

theorem get_comps_stale (env : FetchEnv) (now : ℚ) (cache : Cache)
    (brand item_type size colour : String) (hit : CacheEntry)
    (h : cacheGet cache ("q:" ++ normalize_query brand item_type size colour) = some hit)
    (hf : ¬ qsub now hit.t < CACHE_TTL) :
    get_comps env now cache brand item_type size colour =
      fetchAndAssemble env now cache (normalize_query brand item_type size colour) := by
  unfold get_comps
  rw [h]
  exact if_neg hf

theorem fetchAndAssemble_cache_write (env : FetchEnv) (now : ℚ) (cache : Cache) (q : String) :
    (fetchAndAssemble env now cache q).2.1 =
      cachePut cache ("q:" ++ q) { t := now, data := (fetchAndAssemble env now cache q).1 } := rfl

theorem fetchAndAssemble_trace (env : FetchEnv) (now : ℚ) (cache : Cache) (q : String) :
    (fetchAndAssemble env now cache q).2.2 = (runCascade env q).2.2 := rfl

theorem fetchAndAssemble_cache_false (env : FetchEnv) (now : ℚ) (cache : Cache) (q : String) :
    (fetchAndAssemble env now cache q).1.cache = false := rfl

theorem runCascade_trace_head (env : FetchEnv) (q : String) :
    (runCascade env q).2.2.head? = some Fetcher.api := by
  unfold runCascade
  split_ifs <;> rfl

theorem runCascade_items_empty (env : FetchEnv) (q : String)
    (h : env.api q = [] ∧ env.html q = [] ∧ env.csApi q = [] ∧ env.csHtml q = []) :
    (runCascade env q).1 = [] := by
  unfold runCascade
  simp only [h.1, h.2.1, h.2.2.1, h.2.2.2, ne_eq, not_true_eq_false, if_false,
    not_false_eq_true]
  split_ifs <;> rfl

theorem fetchAndAssemble_count (env : FetchEnv) (now : ℚ) (cache : Cache) (q : String) :
    (fetchAndAssemble env now cache q).1.count =
      ((uniq (runCascade env q).1).take MAX_ITEMS).length := by
  show (compute_stats ((uniq (runCascade env q).1).take MAX_ITEMS)).raw_count = _
  exact compute_stats_raw_count _

theorem fetchAndAssemble_median (env : FetchEnv) (now : ℚ) (cache : Cache) (q : String) :
    (fetchAndAssemble env now cache q).1.median_price_gbp =
      (compute_stats ((uniq (runCascade env q).1).take MAX_ITEMS)).median := rfl

theorem fetchAndAssemble_p25 (env : FetchEnv) (now : ℚ) (cache : Cache) (q : String) :
    (fetchAndAssemble env now cache q).1.p25_gbp =
      (compute_stats ((uniq (runCascade env q).1).take MAX_ITEMS)).p25 := rfl

theorem fetchAndAssemble_p75 (env : FetchEnv) (now : ℚ) (cache : Cache) (q : String) :
    (fetchAndAssemble env now cache q).1.p75_gbp =
      (compute_stats ((uniq (runCascade env q).1).take MAX_ITEMS)).p75 := rfl

theorem fetchAndAssemble_source (env : FetchEnv) (now : ℚ) (cache : Cache) (q : String) :
    (fetchAndAssemble env now cache q).1.source = (runCascade env q).2.1 := rfl

theorem api_price_status_eq_200 (r : AggResult) : api_price_status r = 200 ↔ r.count ≠ 0 := by
  unfold api_price_status
  split_ifs with h
  · simp [h]
  · simp [h]

theorem take_uniq_length_eq_zero (cas : List Listing) :
    ((uniq cas).take MAX_ITEMS).length = 0 ↔ cas = [] := by
  rw [List.length_take]
  constructor
  · intro h
    have h40 : MAX_ITEMS = 40 := rfl
    have hlen : (uniq cas).length = 0 := by omega
    exact (uniq_eq_nil_iff cas).mp (List.length_eq_zero.mp hlen)
  · intro h
    subst h
    rfl

/-- A fetch environment whose structured-API fetcher always returns one
listing and whose other fetchers return nothing; used by witnesses. -/
def oneListingEnv : FetchEnv :=
  { api := fun _ => [{ title := "t", price_gbp := 5, url := "u" }],
    html := fun _ => [], csApi := fun _ => [], csHtml := fun _ => [],
    hasCloudscraper := false }

/-- A fetch environment whose fetchers all return the empty list; used
by witnesses. -/
def emptyFetchEnv : FetchEnv :=
  { api := fun _ => [], html := fun _ => [], csApi := fun _ => [], csHtml := fun _ => [],
    hasCloudscraper := true }

/-! ## The claims -/

/-- C8: deduplication removes exactly the listings whose
`(url, title, price_gbp)` triple equals that of an earlier listing,
keeps the first occurrence, and preserves the relative order of
survivors (stated as `uniq = dedupFirstOcc`, the spec-side recursion);
in particular `[A, B, A, C]` with `A` repeating deduplicates to
`[A, B, C]`. -/
theorem claim_C8 :
    (∀ l : List Listing, uniq l = dedupFirstOcc l) ∧
    uniq [⟨"tA", (10 : ℚ), "uA"⟩, ⟨"tB", 20, "uB"⟩, ⟨"tA", 10, "uA"⟩, ⟨"tC", 30, "uC"⟩]
      = [⟨"tA", 10, "uA"⟩, ⟨"tB", 20, "uB"⟩, ⟨"tC", 30, "uC"⟩] :=
  ⟨uniq_eq_dedupFirstOcc_aux, by decide⟩

/-- C5: on a cache miss the orchestrator tries the fetchers in the
fixed order API, HTML, anti-automation API, anti-automation HTML (the
last two only when the transport is available), stops at the first
non-empty result without invoking any later fetcher, and never merges
listings from two fetchers; in particular a non-empty structured-API
result means no other fetcher is invoked. -/
theorem claim_C5 (env : FetchEnv) (q : String) :
    (env.api q ≠ [] → runCascade env q = (env.api q, "api", [Fetcher.api])) ∧
    (env.api q = [] → env.html q ≠ [] →
      runCascade env q = (env.html q, "html", [Fetcher.api, Fetcher.html])) ∧
    (env.api q = [] → env.html q = [] → env.hasCloudscraper = true → env.csApi q ≠ [] →
      runCascade env q = (env.csApi q, "cloudscraper-api",
        [Fetcher.api, Fetcher.html, Fetcher.csApi])) ∧
    (env.api q = [] → env.html q = [] → env.hasCloudscraper = true → env.csApi q = [] →
      env.csHtml q ≠ [] →
      runCascade env q = (env.csHtml q, "cloudscraper-html",
        [Fetcher.api, Fetcher.html, Fetcher.csApi, Fetcher.csHtml])) ∧
    (env.hasCloudscraper = false →
      Fetcher.csApi ∉ (runCascade env q).2.2 ∧ Fetcher.csHtml ∉ (runCascade env q).2.2) ∧
    (∀ (now : ℚ) (cache : Cache) (brand item_type size colour : String),
      normalize_query brand item_type size colour = q →
      cacheGet cache ("q:" ++ q) = none →
      env.api q ≠ [] →
      (get_comps env now cache brand item_type size colour).1.source = "api" ∧
      (get_comps env now cache brand item_type size colour).2.2 = [Fetcher.api]) := by
  refine ⟨?_, ?_, ?_, ?_, ?_, ?_⟩
  · intro h
    simp [runCascade, h]
  · intro h1 h2
    simp [runCascade, h1, h2]
  · intro h1 h2 h3 h4
    simp [runCascade, h1, h2, h3, h4]
  · intro h1 h2 h3 h4 h5
    simp [runCascade, h1, h2, h3, h4, h5]
  · intro h
    unfold runCascade
    simp only [h]
    split_ifs <;> simp_all
  · intro now cache brand item_type size colour hq hm hapi
    have hmq : cacheGet cache ("q:" ++ normalize_query brand item_type size colour) = none := by
      rw [hq]
      exact hm
    rw [get_comps_miss env now cache brand item_type size colour hmq, hq,
      fetchAndAssemble_source, fetchAndAssemble_trace]
    constructor
    · simp [runCascade, hapi]
    · simp [runCascade, hapi]

/-- Witness for C5: a concrete environment whose API fetcher returns a
listing, at which the first conjunct applies. -/
theorem claim_C5_witness :
    oneListingEnv.api ("x") ≠ [] ∧
    runCascade oneListingEnv ("x") = (oneListingEnv.api ("x"), "api", [Fetcher.api]) :=
  ⟨by decide, (claim_C5 oneListingEnv ("x")).1 (by decide)⟩

/-- C7: when every fetcher returns an empty list the orchestrator
still returns a well-formed result with `count = 0` and all three
statistics `none`, which the HTTP layer maps to status 404; and the
status is 200 exactly when at least one raw listing was found. -/
theorem claim_C7 :
    (∀ (env : FetchEnv) (now : ℚ) (cache : Cache) (brand item_type size colour : String),
      (∀ q2, env.api q2 = [] ∧ env.html q2 = [] ∧ env.csApi q2 = [] ∧ env.csHtml q2 = []) →
      cacheGet cache ("q:" ++ normalize_query brand item_type size colour) = none →
      (get_comps env now cache brand item_type size colour).1.count = 0 ∧
      (get_comps env now cache brand item_type size colour).1.median_price_gbp = none ∧
      (get_comps env now cache brand item_type size colour).1.p25_gbp = none ∧
      (get_comps env now cache brand item_type size colour).1.p75_gbp = none ∧
      api_price_status (get_comps env now cache brand item_type size colour).1 = 404) ∧
    (∀ (env : FetchEnv) (now : ℚ) (cache : Cache) (brand item_type size colour : String),
      cacheGet cache ("q:" ++ normalize_query brand item_type size colour) = none →
      (api_price_status (get_comps env now cache brand item_type size colour).1 = 200 ↔
        (runCascade env (normalize_query brand item_type size colour)).1 ≠ [])) := by
  constructor
  · intro env now cache brand item_type size colour hempty hmiss
    rw [get_comps_miss env now cache brand item_type size colour hmiss]
    have hcas : (runCascade env (normalize_query brand item_type size colour)).1 = [] :=
      runCascade_items_empty _ _ (hempty _)
    have hcount : (fetchAndAssemble env now cache
        (normalize_query brand item_type size colour)).1.count = 0 := by
      rw [fetchAndAssemble_count, hcas]
      rfl
    refine ⟨hcount, ?_, ?_, ?_, ?_⟩
    · rw [fetchAndAssemble_median, hcas]
      decide
    · rw [fetchAndAssemble_p25, hcas]
      decide
    · rw [fetchAndAssemble_p75, hcas]
      decide
    · unfold api_price_status
      rw [if_neg (by rw [hcount]; exact fun hc => hc rfl)]
  · intro env now cache brand item_type size colour hmiss
    rw [get_comps_miss env now cache brand item_type size colour hmiss,
      api_price_status_eq_200, fetchAndAssemble_count]
    constructor
    · intro h hc
      apply h
      rw [(take_uniq_length_eq_zero _).mpr hc]
    · intro h hc
      exact h ((take_uniq_length_eq_zero _).mp hc)

/-- Witness for C7: the all-empty environment at a concrete query. -/
theorem claim_C7_witness :
    (get_comps emptyFetchEnv 0 [] ("a") ("b") ("c") ("d")).1.count = 0 ∧
    (get_comps emptyFetchEnv 0 [] ("a") ("b") ("c") ("d")).1.median_price_gbp = none ∧
    api_price_status (get_comps emptyFetchEnv 0 [] ("a") ("b") ("c") ("d")).1 = 404 := by
  have h := claim_C7.1 emptyFetchEnv 0 [] ("a") ("b") ("c") ("d")
    (fun _ => ⟨rfl, rfl, rfl, rfl⟩) (by decide)
  exact ⟨h.1, h.2.1, h.2.2.2.2⟩

/-- C6: a second call with the same normalized query within the TTL
returns the first call's result with `cache = true` and performs no
fetch; after the TTL the stale entry is treated as a miss and a fresh
fetch cascade runs. -/
theorem claim_C6 (env : FetchEnv) (c0 : Cache) (t1 t2 : ℚ)
    (b1 i1 s1 c1 b2 i2 s2 c2 : String)
    (hq : normalize_query b2 i2 s2 c2 = normalize_query b1 i1 s1 c1)
    (hmiss : cacheGet c0 ("q:" ++ normalize_query b1 i1 s1 c1) = none) :
    (qsub t2 t1 < CACHE_TTL →
      (get_comps env t2 (get_comps env t1 c0 b1 i1 s1 c1).2.1 b2 i2 s2 c2).1
        = { (get_comps env t1 c0 b1 i1 s1 c1).1 with cache := true } ∧
      (get_comps env t2 (get_comps env t1 c0 b1 i1 s1 c1).2.1 b2 i2 s2 c2).2.2 = []) ∧
    (¬ qsub t2 t1 < CACHE_TTL →
      (get_comps env t2 (get_comps env t1 c0 b1 i1 s1 c1).2.1 b2 i2 s2 c2).2.2
        = (runCascade env (normalize_query b1 i1 s1 c1)).2.2 ∧
      (get_comps env t2 (get_comps env t1 c0 b1 i1 s1 c1).2.1 b2 i2 s2 c2).2.2.head?
        = some Fetcher.api) := by
  have h1 : get_comps env t1 c0 b1 i1 s1 c1
      = fetchAndAssemble env t1 c0 (normalize_query b1 i1 s1 c1) :=
    get_comps_miss env t1 c0 b1 i1 s1 c1 hmiss
  have hw : cacheGet (get_comps env t1 c0 b1 i1 s1 c1).2.1
      ("q:" ++ normalize_query b2 i2 s2 c2)
      = some { t := t1, data := (get_comps env t1 c0 b1 i1 s1 c1).1 } := by
    rw [hq, h1, fetchAndAssemble_cache_write]
    exact cacheGet_cachePut_self _ _ _
  constructor
  · intro hf
    rw [get_comps_hit env t2 _ b2 i2 s2 c2 _ hw hf]
    exact ⟨rfl, rfl⟩
  · intro hs
    rw [get_comps_stale env t2 _ b2 i2 s2 c2 _ hw hs, hq, fetchAndAssemble_trace]
    exact ⟨rfl, runCascade_trace_head _ _⟩

/-- Witness for C6: a fresh second call one time unit after a first
call on the empty cache. -/
theorem claim_C6_witness :
    (get_comps oneListingEnv 1 (get_comps oneListingEnv 0 [] ("a") ("") ("") ("")).2.1
        ("a") ("") ("") ("")).1
      = { (get_comps oneListingEnv 0 [] ("a") ("") ("") ("")).1 with cache := true } ∧
    (get_comps oneListingEnv 1 (get_comps oneListingEnv 0 [] ("a") ("") ("") ("")).2.1
        ("a") ("") ("") ("")).2.2 = [] :=
  (claim_C6 oneListingEnv [] 0 1 ("a") ("") ("") ("") ("a") ("") ("") ("") rfl
    (by decide)).1 (by decide)

/-- C10: every non-cache-hit call — no entry for the key, or only a
stale one — writes its result to the cache unconditionally, and
zero-result outcomes are negatively cached: after an all-empty
cascade, a second call within the TTL returns the cached `count = 0`
result with `cache = true` and invokes no fetcher. -/
theorem claim_C10 :
    (∀ (env : FetchEnv) (now : ℚ) (cache : Cache) (brand item_type size colour : String),
      isFreshHit cache ("q:" ++ normalize_query brand item_type size colour) now = false →
      (get_comps env now cache brand item_type size colour).2.1
        = cachePut cache ("q:" ++ normalize_query brand item_type size colour)
            { t := now, data := (get_comps env now cache brand item_type size colour).1 }) ∧
    (∀ (env : FetchEnv) (c0 : Cache) (t1 t2 : ℚ) (brand item_type size colour : String),
      (∀ q2, env.api q2 = [] ∧ env.html q2 = [] ∧ env.csApi q2 = [] ∧ env.csHtml q2 = []) →
      cacheGet c0 ("q:" ++ normalize_query brand item_type size colour) = none →
      qsub t2 t1 < CACHE_TTL →
      (get_comps env t1 c0 brand item_type size colour).1.count = 0 ∧
      (get_comps env t2 (get_comps env t1 c0 brand item_type size colour).2.1
          brand item_type size colour).1.count = 0 ∧
      (get_comps env t2 (get_comps env t1 c0 brand item_type size colour).2.1
          brand item_type size colour).1.cache = true ∧
      (get_comps env t2 (get_comps env t1 c0 brand item_type size colour).2.1
          brand item_type size colour).2.2 = []) := by
  constructor
  · intro env now cache brand item_type size colour h
    unfold isFreshHit at h
    rcases hg : cacheGet cache ("q:" ++ normalize_query brand item_type size colour)
      with _ | hit
    · rw [get_comps_miss env now cache brand item_type size colour hg]
      exact fetchAndAssemble_cache_write env now cache _
    · have hs : ¬ qsub now hit.t < CACHE_TTL := by
        rw [hg] at h
        simpa using h
      rw [get_comps_stale env now cache brand item_type size colour hit hg hs]
      exact fetchAndAssemble_cache_write env now cache _
  · intro env c0 t1 t2 brand item_type size colour hempty hmiss hf
    have h1 : get_comps env t1 c0 brand item_type size colour
        = fetchAndAssemble env t1 c0 (normalize_query brand item_type size colour) :=
      get_comps_miss env t1 c0 brand item_type size colour hmiss
    have hcount : (get_comps env t1 c0 brand item_type size colour).1.count = 0 := by
      rw [h1, fetchAndAssemble_count,
        runCascade_items_empty _ _ (hempty (normalize_query brand item_type size colour))]
      rfl
    have hw : cacheGet (get_comps env t1 c0 brand item_type size colour).2.1
        ("q:" ++ normalize_query brand item_type size colour)
        = some { t := t1, data := (get_comps env t1 c0 brand item_type size colour).1 } := by
      rw [h1, fetchAndAssemble_cache_write]
      exact cacheGet_cachePut_self _ _ _
    rw [get_comps_hit env t2 _ brand item_type size colour _ hw hf]
    exact ⟨hcount, hcount, rfl, rfl⟩

/-- Witness for C10: the all-empty environment, first call at time 0,
second call at time 1 on the cache the first call wrote; and the
unconditional-write conjunct exercised on a *stale* entry, at time 700
(past the 600-second TTL) on that same written cache. -/
theorem claim_C10_witness :
    (get_comps emptyFetchEnv 1 (get_comps emptyFetchEnv 0 [] ("a") ("") ("") ("")).2.1
        ("a") ("") ("") ("")).1.count = 0 ∧
    (get_comps emptyFetchEnv 1 (get_comps emptyFetchEnv 0 [] ("a") ("") ("") ("")).2.1
        ("a") ("") ("") ("")).1.cache = true ∧
    (get_comps emptyFetchEnv 1 (get_comps emptyFetchEnv 0 [] ("a") ("") ("") ("")).2.1
        ("a") ("") ("") ("")).2.2 = [] ∧
    isFreshHit (get_comps emptyFetchEnv 0 [] ("a") ("") ("") ("")).2.1
      ("q:" ++ normalize_query ("a") ("") ("") ("")) 700 = false ∧
    (get_comps emptyFetchEnv 700 (get_comps emptyFetchEnv 0 [] ("a") ("") ("") ("")).2.1
        ("a") ("") ("") ("")).2.1
      = cachePut (get_comps emptyFetchEnv 0 [] ("a") ("") ("") ("")).2.1
          ("q:" ++ normalize_query ("a") ("") ("") (""))
          { t := 700,
            data := (get_comps emptyFetchEnv 700
              (get_comps emptyFetchEnv 0 [] ("a") ("") ("") ("")).2.1
              ("a") ("") ("") ("")).1 } := by
  have h := claim_C10.2 emptyFetchEnv [] 0 1 ("a") ("") ("") ("")
    (fun _ => ⟨rfl, rfl, rfl, rfl⟩) (by decide) (by decide)
  refine ⟨h.2.1, h.2.2.1, h.2.2.2, by decide, ?_⟩
  exact claim_C10.1 emptyFetchEnv 700 (get_comps emptyFetchEnv 0 [] ("a") ("") ("") ("")).2.1
    ("a") ("") ("") ("") (by decide)

/-! ## Rounding bounds for the currency parser -/

theorem qround2_nonneg (v : ℚ) (h : 0 < v) : 0 ≤ qround2 v := by
  rw [qround2_eq]
  have h1 : (0 : ℤ) ≤ ⌊v * 100 + 1/2⌋ := Int.floor_nonneg.mpr (by linarith)
  have h2 : (0 : ℚ) ≤ ((⌊v * 100 + 1/2⌋ : ℤ) : ℚ) := by exact_mod_cast h1
  linarith

theorem qround2_le_10000 (v : ℚ) (h : v < 10000) : qround2 v ≤ 10000 := by
  rw [qround2_eq]
  have h1 : ⌊v * 100 + 1/2⌋ < 1000001 := by
    rw [Int.floor_lt]
    push_cast
    linarith
  have h2 : ((⌊v * 100 + 1/2⌋ : ℤ) : ℚ) ≤ 1000000 := by
    exact_mod_cast Int.lt_add_one_iff.mp h1
  linarith

theorem qround2_idem (v : ℚ) : qround2 (qround2 v) = qround2 v := by
  rw [qround2_eq, qround2_eq]
  have hhalf : ⌊(1 : ℚ)/2⌋ = 0 := by
    rw [Int.floor_eq_zero_iff]
    constructor <;> norm_num
  have harg : ((⌊v * 100 + 1/2⌋ : ℤ) : ℚ) / 100 * 100 + 1/2
      = ((⌊v * 100 + 1/2⌋ : ℤ) : ℚ) + 1/2 := by
    ring
  rw [harg, Int.floor_int_add, hhalf, add_zero]

theorem normAmountCore_some (cs : List Char) (v : ℚ) (h : normAmountCore cs = some v) :
    ∃ v0, 0 < v0 ∧ v0 < 10000 ∧ v = qround2 v0 := by
  simp only [normAmountCore] at h
  split at h
  · exact absurd h (by simp)
  · split at h
    · exact absurd h (by simp)
    · split at h
      · split at h
        · rename_i hrange
          exact ⟨_, hrange.1, hrange.2, (Option.some.inj h).symm⟩
        · exact absurd h (by simp)
      · split at h
        · rename_i hrange
          exact ⟨_, hrange.1, hrange.2, (Option.some.inj h).symm⟩
        · exact absurd h (by simp)

theorem normalize_amount_string_some (s : String) (v : ℚ)
    (h : normalize_amount_string s = some v) :
    ∃ v0, 0 < v0 ∧ v0 < 10000 ∧ v = qround2 v0 :=
  normAmountCore_some _ _ h

theorem extract_price_from_text_some (t : String) (v : ℚ)
    (h : extract_price_from_text t = some v) :
    ∃ v0, 0 < v0 ∧ v0 < 10000 ∧ v = qround2 v0 := by
  simp only [extract_price_from_text] at h
  split at h
  · exact absurd h (by simp)
  · split at h
    · rename_i w heq
      obtain ⟨g, _, hg⟩ := Option.bind_eq_some.mp heq
      obtain rfl : w = v := Option.some.inj h
      exact normAmountCore_some _ _ hg
    · split at h
      · rename_i w heq
        obtain ⟨g, _, hg⟩ := Option.bind_eq_some.mp heq
        obtain rfl : w = v := Option.some.inj h
        exact normAmountCore_some _ _ hg
      · exact normAmountCore_some _ _ h

/-! ## Claims about the currency parser and the API price coercion -/

/-- C1 is a code bug: the claim (and §3 of the spec) says every
listing produced by a fetcher has `price_gbp` strictly between 0 and
10000, but the numeric pence-coercion branch of
`_coerce_price_gbp_from_api_item` divides any numeric field `≥ 100` by
100 **without** re-checking the upper bound, so an upstream item with
`price = 2000000` (minor units) yields a listing with
`price_gbp = 20000`, which `fetch_vinted_api` appends unchecked.  The
string paths (and the HTML fetcher) do enforce the bound via
`extract_price_from_text`. -/
theorem claim_C1 :
    coerce_price_gbp_from_api_item { price := some (Sum.inr 2000000) } = some 20000 ∧
    (fetch_vinted_api_items [{ price := some (Sum.inr 2000000) }]).map
      (fun l => l.price_gbp) = [20000] ∧
    ¬ ((20000 : ℚ) < 10000) := by
  refine ⟨by decide, by decide, by decide⟩

/-- Counterexample to C4 as stated: the parser maps `"0.001"` to
`0.0`, because the strict range check `0 < v < 10000` happens *before*
rounding; the returned value is not strictly positive. -/
theorem claim_C4_counterexample :
    extract_price_from_text ("0.001") = some 0 ∧ ¬ ((0 : ℚ) < 0) := by
  refine ⟨by decide, by decide⟩

/-- C4, amended: the four concrete mappings hold; and every returned
value is `round(v0, 2)` of some pre-rounding value `v0` with
`0 < v0 < 10000` (the strict bound is checked before rounding), hence
the returned value is a 2-decimal-place value in the closed interval
`[0, 10000]` — the endpoints are reachable by rounding, so the bound
on the returned value is not strict. -/
theorem claim_C4 :
    extract_price_from_text ("£1,299.00") = some 1299 ∧
    extract_price_from_text ("47,95") = some (47.95 : ℚ) ∧
    extract_price_from_text ("4795") = some (47.95 : ℚ) ∧
    extract_price_from_text ("71.08 1") = some (71.08 : ℚ) ∧
    (∀ (s : String) (v : ℚ), normalize_amount_string s = some v →
      (∃ v0, 0 < v0 ∧ v0 < 10000 ∧ v = qround2 v0) ∧
      0 ≤ v ∧ v ≤ 10000 ∧ qround2 v = v) ∧
    (∀ (t : String) (v : ℚ), extract_price_from_text t = some v →
      (∃ v0, 0 < v0 ∧ v0 < 10000 ∧ v = qround2 v0) ∧
      0 ≤ v ∧ v ≤ 10000 ∧ qround2 v = v) := by
  have hb : (mkRat 4795 100 : ℚ) = 47.95 := by
    norm_num [Rat.mkRat_eq_divInt, Rat.divInt_eq_div]
  have hc : (mkRat 7108 100 : ℚ) = 71.08 := by
    norm_num [Rat.mkRat_eq_divInt, Rat.divInt_eq_div]
  refine ⟨by decide, ?_, ?_, ?_, ?_, ?_⟩
  · rw [← hb]
    decide
  · rw [← hb]
    decide
  · rw [← hc]
    decide
  · intro s v h
    obtain ⟨v0, h1, h2, rfl⟩ := normalize_amount_string_some s v h
    exact ⟨⟨v0, h1, h2, rfl⟩, qround2_nonneg v0 h1, qround2_le_10000 v0 h2, qround2_idem v0⟩
  · intro t v h
    obtain ⟨v0, h1, h2, rfl⟩ := extract_price_from_text_some t v h
    exact ⟨⟨v0, h1, h2, rfl⟩, qround2_nonneg v0 h1, qround2_le_10000 v0 h2, qround2_idem v0⟩

/-- Witness for C4: the bound conjuncts applied at the input `"£5"`,
which parses to `5`. -/
theorem claim_C4_witness :
    extract_price_from_text ("£5") = some 5 ∧
    (0 : ℚ) ≤ 5 ∧ (5 : ℚ) ≤ 10000 ∧ qround2 5 = 5 := by
  have h5 : extract_price_from_text ("£5") = some 5 := by decide
  exact ⟨h5, (claim_C4.2.2.2.2.2 ("£5") 5 h5).2⟩

/-! ## Claim C2: the clamp-with-fallback policy -/

theorem compute_stats_prices (items : List Listing) :
    (compute_stats items).prices
      = iqr_filter
          (if max 6 ((items.map (fun it => it.price_gbp)).length / 3)
              ≤ ((items.map (fun it => it.price_gbp)).filter
                (fun v => decide (CLAMP_MIN ≤ v ∧ v ≤ CLAMP_MAX))).length
          then (items.map (fun it => it.price_gbp)).filter
            (fun v => decide (CLAMP_MIN ≤ v ∧ v ≤ CLAMP_MAX))
          else items.map (fun it => it.price_gbp)) := by
  unfold compute_stats
  rw [apply_ite Stats.prices]
  simp only [ENABLE_OUTLIER_FILTER, if_true]
  split_ifs with h1 h2 h3
  · exact h2.symm
  · rfl
  · exact h3.symm
  · rfl

/-- The raw prices of the clamp-fallback example of §8 of the spec:
`[10, 12, 11, 13, 14, 12, 1000]`. -/
def c2Items : List Listing :=
  [⟨"l1", 10, "u1"⟩, ⟨"l2", 12, "u2"⟩, ⟨"l3", 11, "u3"⟩, ⟨"l4", 13, "u4"⟩,
   ⟨"l5", 14, "u5"⟩, ⟨"l6", 12, "u6"⟩, ⟨"l7", 1000, "u7"⟩]

/-- Counterexample to C2 as stated: on the example the reported p25 is
`11.25` (not `11.0`) and the reported p75 is `12.75` (not `13.0`) —
`pct` interpolates linearly at `k = 1.25` and `k = 3.75` over
`[10, 11, 12, 12, 13, 14]`. -/
theorem claim_C2_counterexample :
    (compute_stats c2Items).p25 = some (11.25 : ℚ) ∧ (11.25 : ℚ) ≠ 11 ∧
    (compute_stats c2Items).p75 = some (12.75 : ℚ) ∧ (12.75 : ℚ) ≠ 13 := by
  have h25 : (mkRat 45 4 : ℚ) = 11.25 := by
    norm_num [Rat.mkRat_eq_divInt, Rat.divInt_eq_div]
  have h75 : (mkRat 51 4 : ℚ) = 12.75 := by
    norm_num [Rat.mkRat_eq_divInt, Rat.divInt_eq_div]
  refine ⟨?_, by norm_num, ?_, by norm_num⟩
  · rw [← h25]
    decide
  · rw [← h75]
    decide

/-- C2, amended: the statistics pipeline first drops prices outside
`[CLAMP_MIN, CLAMP_MAX]`; if fewer than `max(6, raw_count // 3)`
survive it reverts to the raw list, else it keeps the clamped list —
and on `[10, 12, 11, 13, 14, 12, 1000]` with the default bounds
`[2, 500]`, `1000` is dropped, the 6 survivors are kept (not reverted)
and pass the IQR filter whole, and the reported median is `12.0`, p25
is `11.25` and p75 is `12.75` (the claim's `11.0` and `13.0` do not
match the linear interpolation the code performs). -/
theorem claim_C2 :
    (∀ items : List Listing,
      ((items.map (fun it => it.price_gbp)).filter
          (fun v => decide (CLAMP_MIN ≤ v ∧ v ≤ CLAMP_MAX))).length
        < max 6 ((items.map (fun it => it.price_gbp)).length / 3) →
      (compute_stats items).prices = iqr_filter (items.map (fun it => it.price_gbp))) ∧
    (∀ items : List Listing,
      max 6 ((items.map (fun it => it.price_gbp)).length / 3)
        ≤ ((items.map (fun it => it.price_gbp)).filter
          (fun v => decide (CLAMP_MIN ≤ v ∧ v ≤ CLAMP_MAX))).length →
      (compute_stats items).prices
        = iqr_filter ((items.map (fun it => it.price_gbp)).filter
          (fun v => decide (CLAMP_MIN ≤ v ∧ v ≤ CLAMP_MAX)))) ∧
    (compute_stats c2Items).median = some 12 ∧
    (compute_stats c2Items).p25 = some (11.25 : ℚ) ∧
    (compute_stats c2Items).p75 = some (12.75 : ℚ) ∧
    (compute_stats c2Items).used_count = 6 ∧
    (compute_stats c2Items).raw_count = 7 ∧
    (compute_stats c2Items).prices = [10, 12, 11, 13, 14, 12] := by
  have h25 : (mkRat 45 4 : ℚ) = 11.25 := by
    norm_num [Rat.mkRat_eq_divInt, Rat.divInt_eq_div]
  have h75 : (mkRat 51 4 : ℚ) = 12.75 := by
    norm_num [Rat.mkRat_eq_divInt, Rat.divInt_eq_div]
  refine ⟨?_, ?_, by decide, ?_, ?_, by decide, by decide, by decide⟩
  · intro items h
    rw [compute_stats_prices, if_neg (Nat.not_le.mpr h)]
  · intro items h
    rw [compute_stats_prices, if_pos h]
  · rw [← h25]
    decide
  · rw [← h75]
    decide

/-- Witness for C2: the keep-the-clamped-list conjunct applied at the
example items, where 6 survivors meet the `max(6, 7 // 3) = 6`
threshold. -/
theorem claim_C2_witness :
    max 6 ((c2Items.map (fun it => it.price_gbp)).length / 3)
      ≤ ((c2Items.map (fun it => it.price_gbp)).filter
        (fun v => decide (CLAMP_MIN ≤ v ∧ v ≤ CLAMP_MAX))).length ∧
    (compute_stats c2Items).prices
      = iqr_filter ((c2Items.map (fun it => it.price_gbp)).filter
        (fun v => decide (CLAMP_MIN ≤ v ∧ v ≤ CLAMP_MAX))) :=
  ⟨by decide, claim_C2.2.1 c2Items (by decide)⟩

/-! ## Claim C3: the percentile function at `p = 50` -/

/-- Modelled from the spec's words (§8): the conventional median of a
sorted sequence — the middle element for odd length, the average of
the two middle elements for even length. -/
def convMedian (arr : List ℚ) : ℚ :=
  if arr.length % 2 = 1 then arr.getD ((arr.length - 1) / 2) 0
  else qdiv (qadd (arr.getD (arr.length / 2 - 1) 0) (arr.getD (arr.length / 2) 0)) 2

theorem pctK_at_50 (values : List ℚ) :
    pctK values 50
      = (((values.insertionSort (fun a b => a ≤ b)).length : ℚ) - 1) / 2 := by
  unfold pctK
  rw [qmul_eq, qsub_eq, qdiv_eq]
  norm_num
  ring

theorem pct50_eq_convMedian (values : List ℚ) (hv : values ≠ []) :
    pct values 50 = some (convMedian (values.insertionSort (fun a b => a ≤ b))) := by
  unfold pct
  rw [if_neg hv, pctK_at_50]
  have hlen : (values.insertionSort (fun a b => a ≤ b)).length = values.length :=
    List.length_insertionSort _ _
  have hn0 : (values.insertionSort (fun a b => a ≤ b)).length ≠ 0 := by
    rw [hlen]
    exact fun hc => hv (List.length_eq_zero.mp hc)
  generalize harr : values.insertionSort (fun a b => a ≤ b) = arr at *
  rcases Nat.even_or_odd arr.length with he | ho
  · obtain ⟨m, hm⟩ := he
    have hm1 : 1 ≤ m := by omega
    have hmq : (1 : ℚ) ≤ (m : ℚ) := by exact_mod_cast hm1
    have hKv : ((arr.length : ℚ) - 1) / 2 = (m : ℚ) - 1/2 := by
      rw [hm]
      push_cast
      ring
    have hf : qfloor (((arr.length : ℚ) - 1) / 2) = (m : ℤ) - 1 := by
      rw [qfloor_eq, hKv, Int.floor_eq_iff]
      constructor
      · push_cast
        linarith
      · push_cast
        linarith
    have hc : qceil (((arr.length : ℚ) - 1) / 2) = (m : ℤ) := by
      rw [qceil_eq, hKv, Int.ceil_eq_iff]
      constructor
      · push_cast
        linarith
      · push_cast
        linarith
    rw [if_neg (by rw [hf, hc]; omega)]
    rw [hf, hc, hKv]
    have ht1 : ((m : ℤ) - 1).toNat = m - 1 := by omega
    have ht2 : ((m : ℤ)).toNat = m := by omega
    rw [ht1, ht2]
    unfold convMedian
    rw [if_neg (by omega)]
    have harr1 : arr.length / 2 - 1 = m - 1 := by omega
    have harr2 : arr.length / 2 = m := by omega
    rw [harr1, harr2]
    congr 1
    rw [qadd_eq, qmul_eq, qmul_eq, qsub_eq, qsub_eq, qdiv_eq, qadd_eq]
    push_cast
    ring
  · obtain ⟨m, hm⟩ := ho
    have hKv : ((arr.length : ℚ) - 1) / 2 = (m : ℚ) := by
      rw [hm]
      push_cast
      ring
    have hf : qfloor (((arr.length : ℚ) - 1) / 2) = (m : ℤ) := by
      rw [qfloor_eq, hKv]
      exact Int.floor_natCast m
    have hc : qceil (((arr.length : ℚ) - 1) / 2) = (m : ℤ) := by
      rw [qceil_eq, hKv]
      exact Int.ceil_natCast m
    rw [if_pos (by rw [hf, hc])]
    rw [hf]
    have ht : ((m : ℤ)).toNat = m := by omega
    rw [ht]
    unfold convMedian
    rw [if_pos (by omega)]
    have harr1 : (arr.length - 1) / 2 = m := by omega
    rw [harr1]

/-- C3: for every non-empty sequence the percentile function at
`p = 50` (i.e. `median`) equals the conventional median of the sorted
sequence — the middle element for odd length, the average of the two
middle elements for even length — and for an empty sequence the
percentile function returns no value. -/
theorem claim_C3 :
    (∀ values : List ℚ, values ≠ [] →
      median values = some (convMedian (values.insertionSort (fun a b => a ≤ b)))) ∧
    (∀ p : ℚ, pct [] p = none) := by
  constructor
  · intro values hv
    exact pct50_eq_convMedian values hv
  · intro p
    rfl

/-- Witness for C3: the odd-length list `[3, 1, 2]` (median `2`) and
the even-length list `[4, 1, 2, 3]` (median `5/2`). -/
theorem claim_C3_witness :
    median [3, 1, 2]
      = some (convMedian (List.insertionSort (fun a b => a ≤ b) [3, 1, 2])) ∧
    convMedian (List.insertionSort (fun a b => a ≤ b) [3, 1, 2]) = 2 ∧
    median [4, 1, 2, 3]
      = some (convMedian (List.insertionSort (fun a b => a ≤ b) [4, 1, 2, 3])) ∧
    convMedian (List.insertionSort (fun a b => a ≤ b) [4, 1, 2, 3]) = mkRat 5 2 :=
  ⟨claim_C3.1 [3, 1, 2] (by decide), by decide,
   claim_C3.1 [4, 1, 2, 3] (by decide), by decide⟩

/-! ## Claim C9: non-null statistics exactly when listings exist -/

theorem pctK_eq (values : List ℚ) (p : ℚ) :
    pctK values p
      = (((values.insertionSort (fun a b => a ≤ b)).length : ℚ) - 1) * (p / 100) := by
  unfold pctK
  rw [qmul_eq, qsub_eq, qdiv_eq]

theorem insertionSort_sorted (values : List ℚ) :
    List.Sorted (· ≤ ·) (values.insertionSort (fun a b => a ≤ b)) :=
  List.sorted_insertionSort _ values

theorem sorted_getD_mono {l : List ℚ} (hs : List.Sorted (· ≤ ·) l) {i j : ℕ}
    (hij : i ≤ j) (hj : j < l.length) : l.getD i 0 ≤ l.getD j 0 := by
  have hi : i < l.length := lt_of_le_of_lt hij hj
  rw [List.getD_eq_getElem?_getD, List.getD_eq_getElem?_getD,
    List.getElem?_eq_getElem hi, List.getElem?_eq_getElem hj, Option.getD_some, Option.getD_some]
  have := List.Sorted.rel_get_of_le hs (a := ⟨i, hi⟩) (b := ⟨j, hj⟩) (by exact hij)
  simpa [List.get_eq_getElem] using this

theorem pct_between (values : List ℚ) (hv : values ≠ []) (p : ℚ)
    (hp0 : 0 ≤ p) (hp1 : p ≤ 100) :
    ∃ q, pct values p = some q ∧
      0 ≤ qfloor (pctK values p) ∧
      qceil (pctK values p) ≤ ((values.insertionSort (fun a b => a ≤ b)).length : ℤ) - 1 ∧
      (values.insertionSort (fun a b => a ≤ b)).getD (qfloor (pctK values p)).toNat 0 ≤ q ∧
      q ≤ (values.insertionSort (fun a b => a ≤ b)).getD (qceil (pctK values p)).toNat 0 := by
  have hlen : (values.insertionSort (fun a b => a ≤ b)).length = values.length :=
    List.length_insertionSort _ _
  have hn1 : 1 ≤ (values.insertionSort (fun a b => a ≤ b)).length := by
    rw [hlen]
    rcases values with _ | ⟨a, l⟩
    · exact absurd rfl hv
    · simp
  have hnq : (1 : ℚ) ≤ ((values.insertionSort (fun a b => a ≤ b)).length : ℚ) := by
    exact_mod_cast hn1
  have hk := pctK_eq values p
  have hk0 : 0 ≤ pctK values p := by
    rw [hk]
    have h100 : (0 : ℚ) ≤ p / 100 := div_nonneg hp0 (by norm_num)
    nlinarith
  have hf0 : 0 ≤ qfloor (pctK values p) := by
    rw [qfloor_eq]
    exact Int.floor_nonneg.mpr hk0
  have hkn : pctK values p ≤ ((values.insertionSort (fun a b => a ≤ b)).length : ℚ) - 1 := by
    rw [hk]
    have h1 : p / 100 ≤ 1 := by linarith
    have h100 : (0 : ℚ) ≤ p / 100 := div_nonneg hp0 (by norm_num)
    nlinarith
  have hcn : qceil (pctK values p)
      ≤ ((values.insertionSort (fun a b => a ≤ b)).length : ℤ) - 1 := by
    rw [qceil_eq, Int.ceil_le]
    push_cast
    linarith
  have hfc : qfloor (pctK values p) ≤ qceil (pctK values p) := by
    rw [qfloor_eq, qceil_eq]
    exact Int.floor_le_ceil _
  have hcb : (qceil (pctK values p)).toNat
      < (values.insertionSort (fun a b => a ≤ b)).length := by
    omega
  have hsort := insertionSort_sorted values
  unfold pct
  rw [if_neg hv]
  by_cases hfceq : qfloor (pctK values p) = qceil (pctK values p)
  · rw [if_pos hfceq]
    refine ⟨_, rfl, hf0, hcn, le_refl _, ?_⟩
    rw [hfceq]
  · rw [if_neg hfceq]
    have hceqf : qceil (pctK values p) = qfloor (pctK values p) + 1 := by
      have h1 : qceil (pctK values p) ≤ qfloor (pctK values p) + 1 := by
        rw [qfloor_eq, qceil_eq]
        exact Int.ceil_le_floor_add_one _
      omega
    have hfk : ((qfloor (pctK values p) : ℤ) : ℚ) ≤ pctK values p := by
      rw [qfloor_eq]
      exact Int.floor_le _
    have hkc : pctK values p ≤ ((qceil (pctK values p) : ℤ) : ℚ) := by
      rw [qceil_eq]
      exact Int.le_ceil _
    have hab : (values.insertionSort (fun a b => a ≤ b)).getD (qfloor (pctK values p)).toNat 0
        ≤ (values.insertionSort (fun a b => a ≤ b)).getD (qceil (pctK values p)).toNat 0 :=
      sorted_getD_mono hsort (Int.toNat_le_toNat hfc) hcb
    have hcq : ((qceil (pctK values p) : ℤ) : ℚ)
        = ((qfloor (pctK values p) : ℤ) : ℚ) + 1 := by
      rw [hceqf]
      push_cast
      ring
    refine ⟨_, rfl, hf0, hcn, ?_, ?_⟩
    · rw [qadd_eq, qmul_eq, qmul_eq, qsub_eq, qsub_eq, hcq]
      nlinarith [mul_nonneg (sub_nonneg.mpr hab) (sub_nonneg.mpr hfk)]
    · rw [qadd_eq, qmul_eq, qmul_eq, qsub_eq, qsub_eq, hcq]
      have hkf1 : pctK values p ≤ ((qfloor (pctK values p) : ℤ) : ℚ) + 1 := by
        rw [← hcq]
        exact hkc
      nlinarith [mul_nonneg (sub_nonneg.mpr hab) (by linarith :
        (0 : ℚ) ≤ ((qfloor (pctK values p) : ℤ) : ℚ) + 1 - pctK values p)]

theorem ceil25_le_floor75 (x : ℚ) (hx : 2 ≤ x) :
    ⌈x * (25/100)⌉ ≤ ⌊x * (75/100)⌋ := by
  rw [Int.le_floor]
  have h1 : ((⌈x * (25/100)⌉ : ℤ) : ℚ) < x * (25/100) + 1 := Int.ceil_lt_add_one _
  linarith

theorem iqr_filter_ne_nil (vals : List ℚ) (hv : vals ≠ []) : iqr_filter vals ≠ [] := by
  unfold iqr_filter
  split_ifs with hlt
  · exact hv
  · have hn6 : 6 ≤ vals.length := Nat.not_lt.mp hlt
    obtain ⟨q1, hq1, hf01, hcn1, hq1lo, hq1hi⟩ :=
      pct_between vals hv 25 (by norm_num) (by norm_num)
    obtain ⟨q3, hq3, hf03, hcn3, hq3lo, hq3hi⟩ :=
      pct_between vals hv 75 (by norm_num) (by norm_num)
    rw [hq1, hq3]
    show vals.filter (fun v => decide (iqrLo q1 q3 ≤ v ∧ v ≤ iqrHi q1 q3)) ≠ []
    have hlen : (vals.insertionSort (fun a b => a ≤ b)).length = vals.length :=
      List.length_insertionSort _ _
    have hl6 : 6 ≤ (vals.insertionSort (fun a b => a ≤ b)).length := by
      rw [hlen]
      exact hn6
    have hx : (2 : ℚ) ≤ ((vals.insertionSort (fun a b => a ≤ b)).length : ℚ) - 1 := by
      have h6 : (6 : ℚ) ≤ ((vals.insertionSort (fun a b => a ≤ b)).length : ℚ) := by
        exact_mod_cast hl6
      linarith
    have hcf : qceil (pctK vals 25) ≤ qfloor (pctK vals 75) := by
      rw [qceil_eq, qfloor_eq, pctK_eq, pctK_eq]
      exact ceil25_le_floor75 _ hx
    have hfc75 : qfloor (pctK vals 75) ≤ qceil (pctK vals 75) := by
      rw [qfloor_eq, qceil_eq]
      exact Int.floor_le_ceil _
    have hidx75 : (qfloor (pctK vals 75)).toNat
        < (vals.insertionSort (fun a b => a ≤ b)).length := by
      omega
    have hmono : (vals.insertionSort (fun a b => a ≤ b)).getD (qceil (pctK vals 25)).toNat 0
        ≤ (vals.insertionSort (fun a b => a ≤ b)).getD (qfloor (pctK vals 75)).toNat 0 :=
      sorted_getD_mono (insertionSort_sorted vals) (Int.toNat_le_toNat hcf) hidx75
    have hq1v : q1 ≤ (vals.insertionSort (fun a b => a ≤ b)).getD
        (qceil (pctK vals 25)).toNat 0 := hq1hi
    have hvq3 : (vals.insertionSort (fun a b => a ≤ b)).getD
        (qceil (pctK vals 25)).toNat 0 ≤ q3 := le_trans hmono hq3lo
    have hidx25 : (qceil (pctK vals 25)).toNat
        < (vals.insertionSort (fun a b => a ≤ b)).length := by
      omega
    have hmem : (vals.insertionSort (fun a b => a ≤ b)).getD
        (qceil (pctK vals 25)).toNat 0 ∈ vals := by
      have hmem0 : (vals.insertionSort (fun a b => a ≤ b)).getD
          (qceil (pctK vals 25)).toNat 0 ∈ vals.insertionSort (fun a b => a ≤ b) := by
        rw [List.getD_eq_getElem?_getD, List.getElem?_eq_getElem hidx25, Option.getD_some]
        exact List.getElem_mem hidx25
      exact (List.mem_insertionSort _).mp hmem0
    have h32 : (mkRat 3 2 : ℚ) = 3/2 := by
      norm_num [Rat.mkRat_eq_divInt, Rat.divInt_eq_div]
    have hlo : iqrLo q1 q3 ≤ (vals.insertionSort (fun a b => a ≤ b)).getD
        (qceil (pctK vals 25)).toNat 0 := by
      unfold iqrLo
      rw [qsub_eq, qmul_eq, qsub_eq, h32]
      linarith
    have hhi : (vals.insertionSort (fun a b => a ≤ b)).getD
        (qceil (pctK vals 25)).toNat 0 ≤ iqrHi q1 q3 := by
      unfold iqrHi
      rw [qadd_eq, qmul_eq, qsub_eq, h32]
      linarith
    intro hc
    have hin : (vals.insertionSort (fun a b => a ≤ b)).getD
        (qceil (pctK vals 25)).toNat 0
        ∈ vals.filter (fun v => decide (iqrLo q1 q3 ≤ v ∧ v ≤ iqrHi q1 q3)) :=
      List.mem_filter.mpr ⟨hmem, by simp only [decide_eq_true_eq]; exact ⟨hlo, hhi⟩⟩
    rw [hc] at hin
    exact absurd hin (List.not_mem_nil _)

theorem pct_isSome (values : List ℚ) (hv : values ≠ []) (p : ℚ) :
    ∃ q, pct values p = some q := by
  unfold pct
  rw [if_neg hv]
  split_ifs
  · exact ⟨_, rfl⟩
  · exact ⟨_, rfl⟩

/-- The price list surviving the clamp-with-fallback step followed by
the IQR filter — the `prices` value computed by `compute_stats`. -/
def statsPipeline (items : List Listing) : List ℚ :=
  iqr_filter (if max 6 ((items.map (fun it => it.price_gbp)).length / 3)
      ≤ ((items.map (fun it => it.price_gbp)).filter
        (fun v => decide (CLAMP_MIN ≤ v ∧ v ≤ CLAMP_MAX))).length
    then (items.map (fun it => it.price_gbp)).filter
      (fun v => decide (CLAMP_MIN ≤ v ∧ v ≤ CLAMP_MAX))
    else items.map (fun it => it.price_gbp))

theorem compute_stats_eq (items : List Listing) :
    compute_stats items
      = if statsPipeline items = []
        then { median := none, p25 := none, p75 := none, used_count := 0,
               raw_count := (items.map (fun it => it.price_gbp)).length, prices := [] }
        else { median := (median (statsPipeline items)).map qround2,
               p25 := (pct (statsPipeline items) 25).map qround2,
               p75 := (pct (statsPipeline items) 75).map qround2,
               used_count := (statsPipeline items).length,
               raw_count := (items.map (fun it => it.price_gbp)).length,
               prices := statsPipeline items } := rfl

theorem statsPipeline_ne_nil (items : List Listing) (h : items ≠ []) :
    statsPipeline items ≠ [] := by
  unfold statsPipeline
  apply iqr_filter_ne_nil
  split_ifs with hcl
  · intro hc
    have h6 := le_trans (le_max_left 6 ((items.map (fun it => it.price_gbp)).length / 3)) hcl
    rw [hc] at h6
    simp at h6
  · intro hc
    exact h (List.map_eq_nil_iff.mp hc)

theorem compute_stats_none_iff (items : List Listing) :
    ((compute_stats items).median = none ↔ (compute_stats items).raw_count = 0) ∧
    ((compute_stats items).p25 = none ↔ (compute_stats items).raw_count = 0) ∧
    ((compute_stats items).p75 = none ↔ (compute_stats items).raw_count = 0) := by
  rcases eq_or_ne items [] with hi | hi
  · subst hi
    have hz : compute_stats ([] : List Listing)
        = { median := none, p25 := none, p75 := none,
            used_count := 0, raw_count := 0, prices := [] } := by decide
    rw [hz]
    simp
  · have hlen0 : items.length ≠ 0 := fun hc => hi (List.length_eq_zero.mp hc)
    have hP : statsPipeline items ≠ [] := statsPipeline_ne_nil items hi
    rw [compute_stats_eq items, if_neg hP]
    dsimp only
    rw [List.length_map]
    obtain ⟨qm, hqm⟩ := pct_isSome _ hP 50
    obtain ⟨q25, hq25⟩ := pct_isSome _ hP 25
    obtain ⟨q75, hq75⟩ := pct_isSome _ hP 75
    unfold median
    rw [hqm, hq25, hq75]
    simp [hlen0]

/-- C9: the three statistics are null exactly when `count` is zero —
whenever at least one price enters the pipeline, the clamp fallback
leaves a non-empty list and the IQR band `[Q1 - 1.5·IQR, Q3 + 1.5·IQR]`
always retains at least one value, so all three statistics are
computed. -/
theorem claim_C9 :
    (∀ items : List Listing,
      ((compute_stats items).median = none ↔ (compute_stats items).raw_count = 0) ∧
      ((compute_stats items).p25 = none ↔ (compute_stats items).raw_count = 0) ∧
      ((compute_stats items).p75 = none ↔ (compute_stats items).raw_count = 0)) ∧
    (∀ (env : FetchEnv) (now : ℚ) (cache : Cache) (brand item_type size colour : String),
      cacheGet cache ("q:" ++ normalize_query brand item_type size colour) = none →
      (((get_comps env now cache brand item_type size colour).1.median_price_gbp = none
          ↔ (get_comps env now cache brand item_type size colour).1.count = 0) ∧
        ((get_comps env now cache brand item_type size colour).1.p25_gbp = none
          ↔ (get_comps env now cache brand item_type size colour).1.count = 0) ∧
        ((get_comps env now cache brand item_type size colour).1.p75_gbp = none
          ↔ (get_comps env now cache brand item_type size colour).1.count = 0))) := by
  constructor
  · exact compute_stats_none_iff
  · intro env now cache brand item_type size colour hmiss
    rw [get_comps_miss env now cache brand item_type size colour hmiss]
    rw [fetchAndAssemble_median, fetchAndAssemble_p25, fetchAndAssemble_p75,
      fetchAndAssemble_count]
    have h := compute_stats_none_iff
      ((uniq (runCascade env (normalize_query brand item_type size colour)).1).take MAX_ITEMS)
    rw [compute_stats_raw_count] at h
    exact h

/-- Witness for C9: the orchestrator-level conjunct at a concrete
environment returning one listing, where both sides of each iff are
false. -/
theorem claim_C9_witness :
    cacheGet [] ("q:" ++ normalize_query ("a") ("") ("") ("")) = none ∧
    ((get_comps oneListingEnv 0 [] ("a") ("") ("") ("")).1.median_price_gbp = none
      ↔ (get_comps oneListingEnv 0 [] ("a") ("") ("") ("")).1.count = 0) :=
  ⟨by decide, (claim_C9.2 oneListingEnv 0 [] ("a") ("") ("") ("") (by decide)).1⟩
